import Mathlib

/-!
Verification of `caer.opencv` (src/caer/opencv.py): a shallow embedding of the
module's functions and proofs of the specified properties.

Modelling conventions:
* A numpy image buffer is a 2-D (grayscale) or 3-D (multi-channel) array of
  integer samples (`NpArray`).  Machine `uint8`/`int16` ranges never matter to
  the properties below, so samples are unbounded `Int`s.
* Python `float` arithmetic is modelled by exact rationals (`ℚ`); the literal
  `.3` becomes `3/10`.
* Fallible Python functions return `Except PyErr`; each `raise` becomes an
  `Except.error` carrying the exception's message.
* The external OpenCV primitives the module merely forwards to (`cv.Canny`,
  the grayscale/HSV/LAB variants of `cv.cvtColor`, `cv.getRotationMatrix2D`)
  are opaque black boxes per the module's design; the embedding takes them as
  explicit function parameters, so every theorem quantifies over their
  behaviour.  The primitives whose behaviour the properties actually consult
  (`cv.cvtColor` for the BGR↔RGB swap codes, including its 3-or-4-channel
  source requirement, `cv.warpAffine`, `cv.mean`) are modelled concretely
  from OpenCV's documented semantics.
-/

namespace Caer

/-- Python exceptions observable from the module: `ValueError msg` for every
explicit `raise ValueError(msg)`, `unboundLocalError v` for reading a local
variable `v` before assignment, `cvError` for an error raised inside an
OpenCV primitive (`cv2.error`), and `urlError` for network failures. -/
inductive PyErr where
  | valueError (msg : String)
  | unboundLocalError (var : String)
  | cvError (msg : String)
  | urlError (msg : String)
deriving DecidableEq

/-- A numpy image buffer: 2-D grayscale (`d2`) or 3-D multi-channel (`d3`),
row-major, innermost lists of `d3` being per-pixel channel vectors. -/
inductive NpArray where
  | d2 (rows : List (List Int))
  | d3 (rows : List (List (List Int)))
deriving DecidableEq

namespace NpArray

/-- `len(img.shape)`: the number of dimensions. -/
def ndim : NpArray → Nat
  | d2 _ => 2
  | d3 _ => 3

/-- `img.shape[0]`: the height. -/
def shape0 : NpArray → Nat
  | d2 rows => rows.length
  | d3 rows => rows.length

/-- `img.shape[1]`: the width (taken from the first row). -/
def shape1 : NpArray → Nat
  | d2 rows => (rows.headD []).length
  | d3 rows => (rows.headD []).length

/-- The channel count: 1 for a 2-D array, `img.shape[2]` for a 3-D one. -/
def channels : NpArray → Nat
  | d2 _ => 1
  | d3 rows => ((rows.headD []).headD []).length

/-- `img.shape` as a list of dimension sizes. -/
def shape : NpArray → List Nat
  | d2 rows => [rows.length, (rows.headD []).length]
  | d3 rows => [rows.length, (rows.headD []).length, ((rows.headD []).headD []).length]

/-- All scalar samples of the buffer, flattened in row-major order
(what `np.median` flattens to). -/
def samples : NpArray → List Int
  | d2 rows => rows.flatten
  | d3 rows => (rows.map List.flatten).flatten

/-- The pixels of the buffer, each as its channel vector (a 2-D array has
one-channel pixels). -/
def pixels : NpArray → List (List Int)
  | d2 rows => rows.flatten.map fun v => [v]
  | d3 rows => rows.flatten

/-- Rectangularity: every row has the width of the first row and (for 3-D
buffers) every pixel has the channel count of the first pixel.  Every real
numpy array satisfies this. -/
def Rect : NpArray → Prop
  | d2 rows => ∀ row ∈ rows, row.length = (rows.headD []).length
  | d3 rows => (∀ row ∈ rows, row.length = (rows.headD []).length) ∧
      (∀ row ∈ rows, ∀ p ∈ row, p.length = ((rows.headD []).headD []).length)

instance instDecidableRect : (img : NpArray) → Decidable img.Rect
  | d2 rows => inferInstanceAs (Decidable (∀ row ∈ rows, row.length = (rows.headD []).length))
  | d3 rows => inferInstanceAs (Decidable
      ((∀ row ∈ rows, row.length = (rows.headD []).length) ∧
        (∀ row ∈ rows, ∀ p ∈ row, p.length = ((rows.headD []).headD []).length)))

end NpArray

/-- Swap the first and third channel of one pixel; pixels with fewer than
three channels are untouched.  This is the per-pixel action of OpenCV's
`COLOR_BGR2RGB` / `COLOR_RGB2BGR` conversions (identical codes up to naming;
a fourth alpha channel is preserved). -/
def swapRB (p : List Int) : List Int :=
  match p with
  | b :: g :: r :: rest => r :: g :: b :: rest
  | q => q

/-- Models `cv.cvtColor(img, code)` for the channel-swap codes `BGR2RGB` and
`RGB2BGR`: the conversion requires a 3- or 4-channel source and raises
`cv2.error` (BadNumChannels, "Invalid number of channels in input image")
otherwise — in particular on 3-D buffers with 1- or 2-channel pixels, which
pass the module's own dimensionality guard; on a valid source it swaps
channels 0 and 2 of every pixel.  (The 2-D arm is unreachable: a 2-D buffer
has channel count 1 and fails the channel check.) -/
def cvtColorSwapRB (img : NpArray) : Except PyErr NpArray :=
  if img.channels = 3 ∨ img.channels = 4 then
    match img with
    | .d2 rows => .ok (.d2 rows)
    | .d3 rows => .ok (.d3 (rows.map fun row => row.map swapRB))
  else .error (.cvError "Invalid number of channels in input image")

/-- The f-string `'Image of shape 3 expected. Found shape {len(img.shape)}.
This method converts ...'` shared by the colour-conversion family. -/
def shapeMsg (found : Nat) (tail : String) : String :=
  "Image of shape 3 expected. Found shape " ++ toString found ++
    ". This method converts " ++ tail

/-- Embeds `caer.opencv.bgr_to_rgb`. -/
def bgr_to_rgb (img : NpArray) : Except PyErr NpArray :=
  if img.ndim ≠ 3 then
    .error (.valueError (shapeMsg img.ndim "a BGR image to its RGB counterpart"))
  else
    cvtColorSwapRB img

/-- Embeds `caer.opencv.rgb_to_bgr`. -/
def rgb_to_bgr (img : NpArray) : Except PyErr NpArray :=
  if img.ndim ≠ 3 then
    .error (.valueError (shapeMsg img.ndim "an RGB image to its BGR counterpart"))
  else
    cvtColorSwapRB img

/-- Embeds `caer.opencv.bgr_to_gray`; the opaque `cv.cvtColor(·, BGR2GRAY)`
primitive is a parameter. -/
def bgr_to_gray (cvt : NpArray → NpArray) (img : NpArray) : Except PyErr NpArray :=
  if img.ndim ≠ 3 then
    .error (.valueError (shapeMsg img.ndim "a BGR image to its Grayscale counterpart"))
  else
    .ok (cvt img)

/-- Embeds `caer.opencv.rgb_to_gray`; the opaque conversion is a parameter. -/
def rgb_to_gray (cvt : NpArray → NpArray) (img : NpArray) : Except PyErr NpArray :=
  if img.ndim ≠ 3 then
    .error (.valueError (shapeMsg img.ndim "an RGB image to its Grayscale counterpart"))
  else
    .ok (cvt img)

/-- Embeds `caer.opencv.bgr_to_hsv`; the opaque conversion is a parameter. -/
def bgr_to_hsv (cvt : NpArray → NpArray) (img : NpArray) : Except PyErr NpArray :=
  if img.ndim ≠ 3 then
    .error (.valueError (shapeMsg img.ndim "a BGR image to its HSV counterpart"))
  else
    .ok (cvt img)

/-- Embeds `caer.opencv.rgb_to_hsv`; the opaque conversion is a parameter. -/
def rgb_to_hsv (cvt : NpArray → NpArray) (img : NpArray) : Except PyErr NpArray :=
  if img.ndim ≠ 3 then
    .error (.valueError (shapeMsg img.ndim "an RGB image to its HSV counterpart"))
  else
    .ok (cvt img)

/-- Embeds `caer.opencv.bgr_to_lab`; the opaque conversion is a parameter. -/
def bgr_to_lab (cvt : NpArray → NpArray) (img : NpArray) : Except PyErr NpArray :=
  if img.ndim ≠ 3 then
    .error (.valueError (shapeMsg img.ndim "a BGR image to its LAB counterpart"))
  else
    .ok (cvt img)

/-- Embeds `caer.opencv.rgb_to_lab`; the opaque conversion is a parameter. -/
def rgb_to_lab (cvt : NpArray → NpArray) (img : NpArray) : Except PyErr NpArray :=
  if img.ndim ≠ 3 then
    .error (.valueError (shapeMsg img.ndim "an RGB image to its LAB counterpart"))
  else
    .ok (cvt img)

lemma swapRB_swapRB (p : List Int) : swapRB (swapRB p) = p := by
  cases p with
  | nil => rfl
  | cons b t =>
    cases t with
    | nil => rfl
    | cons g t2 =>
      cases t2 with
      | nil => rfl
      | cons r rest => rfl

lemma swapRB_comp_eq_id : swapRB ∘ swapRB = id :=
  funext swapRB_swapRB

lemma rows_swapRB_invol (rows : List (List (List Int))) :
    ((rows.map fun r => r.map swapRB).map fun r => r.map swapRB) = rows := by
  simp [List.map_map, swapRB_comp_eq_id]

lemma swapRB_length (p : List Int) : (swapRB p).length = p.length := by
  cases p with
  | nil => rfl
  | cons b t =>
    cases t with
    | nil => rfl
    | cons g t2 =>
      cases t2 with
      | nil => rfl
      | cons r rest => rfl

lemma channels_map_swapRB (rows : List (List (List Int))) :
    NpArray.channels (.d3 (rows.map fun row => row.map swapRB)) =
      NpArray.channels (.d3 rows) := by
  cases rows with
  | nil => rfl
  | cons r0 rest =>
    cases r0 with
    | nil => rfl
    | cons p0 ps =>
      simp only [NpArray.channels, List.map_cons, List.headD_cons]
      exact swapRB_length p0

/-- C6 as stated is false: a 3-dimensional buffer with 1-channel pixels
passes the module's dimensionality guard, but `cv.cvtColor` itself raises
`cv2.error` (the conversion requires 3 or 4 source channels), so the round
trip errors instead of returning the original image. -/
theorem bgr_rgb_roundtrip_counterexample :
    NpArray.ndim (.d3 [[[7], [8]]]) = 3 ∧
      (bgr_to_rgb (.d3 [[[7], [8]]])).bind rgb_to_bgr =
        .error (.cvError "Invalid number of channels in input image") ∧
      (Except.error (PyErr.cvError "Invalid number of channels in input image") :
          Except PyErr NpArray) ≠ .ok (.d3 [[[7], [8]]]) :=
  ⟨rfl, rfl, fun hcon => Except.noConfusion hcon⟩

/-- C6 (amended): for every 3-dimensional image with 3 or 4 channels,
`rgb_to_bgr (bgr_to_rgb img)` returns a buffer equal to the original image —
the BGR/RGB conversion pair is a round-trip identity on every image the
conversion primitive accepts; 3-dimensional images with 1 or 2 channels pass
the shape guard but make the primitive itself raise `cv2.error`. -/
theorem bgr_rgb_roundtrip_valid_channels (img : NpArray) (h : img.ndim = 3)
    (hch : img.channels = 3 ∨ img.channels = 4) :
    (bgr_to_rgb img).bind rgb_to_bgr = Except.ok img := by
  cases img with
  | d2 rows => simp [NpArray.ndim] at h
  | d3 rows =>
    have h1 : bgr_to_rgb (.d3 rows) =
        .ok (.d3 (rows.map fun row => row.map swapRB)) := by
      unfold bgr_to_rgb
      rw [if_neg (by simp [NpArray.ndim])]
      unfold cvtColorSwapRB
      rw [if_pos hch]
    rw [h1]
    show rgb_to_bgr (.d3 (rows.map fun row => row.map swapRB)) = Except.ok (.d3 rows)
    have hch2 : NpArray.channels (.d3 (rows.map fun row => row.map swapRB)) = 3 ∨
        NpArray.channels (.d3 (rows.map fun row => row.map swapRB)) = 4 := by
      rw [channels_map_swapRB]
      exact hch
    unfold rgb_to_bgr
    rw [if_neg (by simp [NpArray.ndim])]
    unfold cvtColorSwapRB
    rw [if_pos hch2]
    show Except.ok
        (NpArray.d3 ((rows.map fun row => row.map swapRB).map fun row => row.map swapRB)) =
      Except.ok (NpArray.d3 rows)
    rw [rows_swapRB_invol]

/-- Witness for the amended C6 at a concrete 3-channel image. -/
theorem bgr_rgb_roundtrip_valid_channels_witness :
    NpArray.ndim (.d3 [[[1, 2, 3], [4, 5, 6]]]) = 3 ∧
      (NpArray.channels (.d3 [[[1, 2, 3], [4, 5, 6]]]) = 3 ∨
        NpArray.channels (.d3 [[[1, 2, 3], [4, 5, 6]]]) = 4) ∧
      (bgr_to_rgb (.d3 [[[1, 2, 3], [4, 5, 6]]])).bind rgb_to_bgr =
        Except.ok (.d3 [[[1, 2, 3], [4, 5, 6]]]) :=
  ⟨rfl, Or.inl rfl, bgr_rgb_roundtrip_valid_channels _ rfl (Or.inl rfl)⟩

/-- C7: every colour-conversion function rejects a 2-dimensional (grayscale)
image with its shape-validation `ValueError` before invoking any conversion
primitive (the result does not depend on the primitives `cvt₁ … cvt₆`). -/
theorem color_conversions_reject_2d (cvt₁ cvt₂ cvt₃ cvt₄ cvt₅ cvt₆ : NpArray → NpArray)
    (img : NpArray) (h : img.ndim = 2) :
    bgr_to_rgb img = .error (.valueError (shapeMsg 2 "a BGR image to its RGB counterpart")) ∧
    rgb_to_bgr img = .error (.valueError (shapeMsg 2 "an RGB image to its BGR counterpart")) ∧
    bgr_to_gray cvt₁ img = .error (.valueError (shapeMsg 2 "a BGR image to its Grayscale counterpart")) ∧
    rgb_to_gray cvt₂ img = .error (.valueError (shapeMsg 2 "an RGB image to its Grayscale counterpart")) ∧
    bgr_to_hsv cvt₃ img = .error (.valueError (shapeMsg 2 "a BGR image to its HSV counterpart")) ∧
    rgb_to_hsv cvt₄ img = .error (.valueError (shapeMsg 2 "an RGB image to its HSV counterpart")) ∧
    bgr_to_lab cvt₅ img = .error (.valueError (shapeMsg 2 "a BGR image to its LAB counterpart")) ∧
    rgb_to_lab cvt₆ img = .error (.valueError (shapeMsg 2 "an RGB image to its LAB counterpart")) := by
  cases img with
  | d3 rows => simp [NpArray.ndim] at h
  | d2 rows =>
    refine ⟨?_, ?_, ?_, ?_, ?_, ?_, ?_, ?_⟩ <;>
      simp [bgr_to_rgb, rgb_to_bgr, bgr_to_gray, rgb_to_gray, bgr_to_hsv, rgb_to_hsv,
        bgr_to_lab, rgb_to_lab, NpArray.ndim]

/-- Witness for C7 at a concrete grayscale image. -/
theorem color_conversions_reject_2d_witness :
    NpArray.ndim (.d2 [[1, 2], [3, 4]]) = 2 ∧
      (bgr_to_rgb (.d2 [[1, 2], [3, 4]]) =
          .error (.valueError (shapeMsg 2 "a BGR image to its RGB counterpart")) ∧
        rgb_to_bgr (.d2 [[1, 2], [3, 4]]) =
          .error (.valueError (shapeMsg 2 "an RGB image to its BGR counterpart")) ∧
        bgr_to_gray id (.d2 [[1, 2], [3, 4]]) =
          .error (.valueError (shapeMsg 2 "a BGR image to its Grayscale counterpart")) ∧
        rgb_to_gray id (.d2 [[1, 2], [3, 4]]) =
          .error (.valueError (shapeMsg 2 "an RGB image to its Grayscale counterpart")) ∧
        bgr_to_hsv id (.d2 [[1, 2], [3, 4]]) =
          .error (.valueError (shapeMsg 2 "a BGR image to its HSV counterpart")) ∧
        rgb_to_hsv id (.d2 [[1, 2], [3, 4]]) =
          .error (.valueError (shapeMsg 2 "an RGB image to its HSV counterpart")) ∧
        bgr_to_lab id (.d2 [[1, 2], [3, 4]]) =
          .error (.valueError (shapeMsg 2 "a BGR image to its LAB counterpart")) ∧
        rgb_to_lab id (.d2 [[1, 2], [3, 4]]) =
          .error (.valueError (shapeMsg 2 "an RGB image to its LAB counterpart"))) :=
  ⟨rfl, color_conversions_reject_2d id id id id id id _ rfl⟩

/-! ### Geometric transforms: `cv.warpAffine`, `translate`, `rotate` -/

/-- A 2×3 affine matrix `[[a, b, c], [d, e, f]]` of (exact-rational models of)
floats, as built by `np.float32([[1, 0, x], [0, 1, y]])` and
`cv.getRotationMatrix2D`. -/
abbrev AffineMat := (ℚ × ℚ × ℚ) × (ℚ × ℚ × ℚ)

/-- Models OpenCV's `invertAffineTransform`: invert the 2×2 linear part and
the translation column; when the determinant is zero every entry is scaled by
zero, yielding the zero matrix (as OpenCV's implementation does). -/
def invertAffineMat (m : AffineMat) : AffineMat :=
  let a := m.1.1
  let b := m.1.2.1
  let c := m.1.2.2
  let d := m.2.1
  let e := m.2.2.1
  let f := m.2.2.2
  let det := a * e - b * d
  let iD := if det = 0 then 0 else det⁻¹
  ((e * iD, -b * iD, (b * f - c * e) * iD), (-d * iD, a * iD, (c * d - a * f) * iD))

/-- Bounds-checked source read at integer coordinates (row `r`, column `c`);
out-of-range reads give the border value, OpenCV's default
`BORDER_CONSTANT` policy with the all-zero scalar. -/
def intLookup {α : Type} (border : α) (rows : List (List α)) (r c : Int) : α :=
  if 0 ≤ r ∧ r < (rows.length : Int) ∧ 0 ≤ c then
    if c < ((rows.getD r.toNat []).length : Int) then (rows.getD r.toNat []).getD c.toNat border
    else border
  else border

/-- Sampling the source at back-mapped coordinates `(fx, fy)`.  At integral
coordinates OpenCV's default `INTER_LINEAR` interpolation reads the source
pixel exactly, which is the only case this module's translation matrices
produce; non-integral coordinates (never reached by the properties below) are
conservatively modelled as the border value. -/
def cvWarpSample {α : Type} (border : α) (rows : List (List α)) (fx fy : ℚ) : α :=
  if fx.den = 1 ∧ fy.den = 1 then intLookup border rows fy.num fx.num else border

/-- One channel plane of `cv.warpAffine(src, m, dsize)`: since
`WARP_INVERSE_MAP` is not passed, the matrix is first inverted, then each
destination pixel `(x, y)` samples the source at the back-mapped point. -/
def warpRows {α : Type} (border : α) (rows : List (List α)) (m : AffineMat)
    (dsize : Nat × Nat) : List (List α) :=
  let mi := invertAffineMat m
  (List.range dsize.2).map fun (y : Nat) => (List.range dsize.1).map fun (x : Nat) =>
    cvWarpSample border rows
      (mi.1.1 * (x : ℚ) + mi.1.2.1 * (y : ℚ) + mi.1.2.2)
      (mi.2.1 * (x : ℚ) + mi.2.2.1 * (y : ℚ) + mi.2.2.2)

/-- Models `cv.warpAffine(image, m, dsize)`: the output canvas is
`dsize = (width, height)`; a 3-D image is warped with per-pixel channel
vectors, the constant border being the all-zero scalar (one zero per
channel). -/
def cvWarpAffine (image : NpArray) (m : AffineMat) (dsize : Nat × Nat) : NpArray :=
  match image with
  | .d2 rows => .d2 (warpRows 0 rows m dsize)
  | .d3 rows =>
      .d3 (warpRows (List.replicate ((rows.headD []).headD []).length 0) rows m dsize)

/-- Embeds `caer.opencv.translate`: affine warp by
`np.float32([[1, 0, x], [0, 1, y]])` onto a canvas of the input's size
`(image.shape[1], image.shape[0])`. -/
def translate (image : NpArray) (x y : Int) : NpArray :=
  let transMat : AffineMat := ((1, 0, (x : ℚ)), (0, 1, (y : ℚ)))
  cvWarpAffine image transMat (image.shape1, image.shape0)

/-- Embeds `caer.opencv.rotate`.  The opaque `cv.getRotationMatrix2D`
primitive (centre, angle, scale ↦ matrix) is a parameter.  The source assigns
the local `centre` only inside `if rotPoint is None:`, so when a rotation
point is supplied the subsequent read of `centre` raises
`UnboundLocalError`. -/
def rotate (getRotationMatrix2D : Int × Int → ℚ → ℚ → AffineMat) (image : NpArray)
    (angle : ℚ) (rotPoint : Option (Int × Int) := none) : Except PyErr NpArray :=
  let height := image.shape0
  let width := image.shape1
  match rotPoint with
  | none =>
      let centre : Int × Int := ((width : Int) / 2, (height : Int) / 2)
      .ok (cvWarpAffine image (getRotationMatrix2D centre angle 1) (width, height))
  | some _ => .error (.unboundLocalError "centre")

lemma invertAffineMat_translate (x y : Int) :
    invertAffineMat ((1, 0, (x : ℚ)), (0, 1, (y : ℚ))) =
      ((1, 0, -(x : ℚ)), (0, 1, -(y : ℚ))) := by
  norm_num [invertAffineMat]

lemma warpRows_translate {α : Type} (border : α) (rows : List (List α)) (x y : Int)
    (w h : Nat) :
    warpRows border rows ((1, 0, (x : ℚ)), (0, 1, (y : ℚ))) (w, h) =
      (List.range h).map fun (r : Nat) => (List.range w).map fun (c : Nat) =>
        intLookup border rows ((r : Int) - y) ((c : Int) - x) := by
  simp only [warpRows, invertAffineMat_translate]
  apply List.ext_getElem (by simp)
  intro i hi1 hi2
  simp only [List.getElem_map, List.getElem_range]
  apply List.ext_getElem (by simp)
  intro j hj1 hj2
  simp only [List.getElem_map, List.getElem_range]
  have hx : (1 * (j : ℚ) + 0 * (i : ℚ) + -((x : Int) : ℚ)) = (((j : Int) - x : Int) : ℚ) := by
    push_cast
    ring
  have hy : ((0 : ℚ) * (j : ℚ) + 1 * (i : ℚ) + -((y : Int) : ℚ)) = (((i : Int) - y : Int) : ℚ) := by
    push_cast
    ring
  rw [hx, hy]
  simp only [cvWarpSample, Rat.den_intCast, Rat.num_intCast]
  simp

lemma warpRows_translate_zero_id {α : Type} (border : α) (rows : List (List α))
    (hw : ∀ row ∈ rows, row.length = (rows.headD []).length) :
    ((List.range rows.length).map fun (r : Nat) =>
        (List.range (rows.headD []).length).map fun (c : Nat) =>
          intLookup border rows ((r : Int) - 0) ((c : Int) - 0)) = rows := by
  apply List.ext_getElem (by simp)
  intro i hi1 hi2
  simp only [List.getElem_map, List.getElem_range]
  have hrowlen : rows[i].length = (rows.headD []).length := hw _ (List.getElem_mem hi2)
  apply List.ext_getElem (by simp [hrowlen])
  intro j hj1 hj2
  simp only [List.getElem_map, List.getElem_range]
  have hi' : ((i : Int) - 0) = (i : Int) := by ring
  have hj' : ((j : Int) - 0) = (j : Int) := by ring
  rw [hi', hj']
  unfold intLookup
  have c2 : (i : Int) < (rows.length : Int) := by exact_mod_cast hi2
  rw [if_pos ⟨Int.natCast_nonneg i, c2, Int.natCast_nonneg j⟩, Int.toNat_natCast,
    List.getD_eq_getElem rows [] hi2]
  have c3 : ((j : Int)) < (rows[i].length : Int) := by exact_mod_cast hj2
  rw [if_pos c3, Int.toNat_natCast, List.getD_eq_getElem _ border hj2]

lemma intLookup_len {cc : Nat} (border : List Int) (rows : List (List (List Int)))
    (r c : Int) (hb : border.length = cc)
    (hp : ∀ row ∈ rows, ∀ p ∈ row, p.length = cc) :
    (intLookup border rows r c).length = cc := by
  unfold intLookup
  split
  case isTrue h =>
    have hrow : r.toNat < rows.length := by omega
    rw [List.getD_eq_getElem rows [] hrow]
    split
    case isTrue h2 =>
      have hc : c.toNat < rows[r.toNat].length := by omega
      rw [List.getD_eq_getElem _ border hc]
      exact hp _ (List.getElem_mem hrow) _ (List.getElem_mem hc)
    case isFalse h2 => exact hb
  case isFalse h => exact hb

lemma headD_range_map {α : Type} (f : Nat → α) (n : Nat) (d : α) :
    ((List.range (n + 1)).map f).headD d = f 0 := by
  rw [List.range_succ_eq_map]
  simp

/-- C8: `translate img 0 0` returns a buffer equal to the original image, and
for every offsets `(x, y)` the output canvas of `translate` has the same
dimensions (`shape`) as the input image. -/
theorem translate_zero_id_and_shape (img : NpArray) (hr : img.Rect) :
    translate img 0 0 = img ∧ ∀ x y : Int, (translate img x y).shape = img.shape := by
  cases img with
  | d2 rows =>
    simp only [NpArray.Rect] at hr
    constructor
    · show NpArray.d2 (warpRows 0 rows _ _) = NpArray.d2 rows
      rw [NpArray.shape1, NpArray.shape0, warpRows_translate,
        warpRows_translate_zero_id 0 rows hr]
    · intro x y
      show (NpArray.d2 (warpRows 0 rows _ _)).shape = _
      rw [NpArray.shape1, NpArray.shape0, warpRows_translate]
      cases rows with
      | nil => simp [NpArray.shape]
      | cons r0 rest =>
        simp only [NpArray.shape, List.length_map, List.length_range, List.length_cons]
        rw [headD_range_map]
        simp
  | d3 rows =>
    simp only [NpArray.Rect] at hr
    constructor
    · show NpArray.d3 (warpRows _ rows _ _) = NpArray.d3 rows
      rw [NpArray.shape1, NpArray.shape0, warpRows_translate,
        warpRows_translate_zero_id _ rows hr.1]
    · intro x y
      show (NpArray.d3 (warpRows _ rows _ _)).shape = _
      rw [NpArray.shape1, NpArray.shape0, warpRows_translate]
      cases rows with
      | nil => simp [NpArray.shape]
      | cons r0 rest =>
        simp only [NpArray.shape, List.length_map, List.length_range, List.length_cons,
          List.headD_cons]
        rw [headD_range_map]
        cases r0 with
        | nil => simp
        | cons p0 ps =>
          simp only [List.length_cons, List.headD_cons, List.length_map, List.length_range]
          rw [headD_range_map]
          simp only [Nat.cast_zero]
          have hlen := intLookup_len (List.replicate p0.length (0 : Int)) ((p0 :: ps) :: rest)
            (0 - y) (0 - x) (List.length_replicate _ _) hr.2
          rw [hlen]

/-- Witness for C8 at a concrete rectangular 3-channel image. -/
theorem translate_zero_id_and_shape_witness :
    NpArray.Rect (.d3 [[[1, 2, 3], [4, 5, 6]], [[7, 8, 9], [10, 11, 12]]]) ∧
      (translate (.d3 [[[1, 2, 3], [4, 5, 6]], [[7, 8, 9], [10, 11, 12]]]) 0 0 =
          .d3 [[[1, 2, 3], [4, 5, 6]], [[7, 8, 9], [10, 11, 12]]] ∧
        ∀ x y : Int,
          (translate (.d3 [[[1, 2, 3], [4, 5, 6]], [[7, 8, 9], [10, 11, 12]]]) x y).shape =
            (NpArray.d3 [[[1, 2, 3], [4, 5, 6]], [[7, 8, 9], [10, 11, 12]]]).shape) :=
  ⟨by decide, translate_zero_id_and_shape _ (by decide)⟩

/-- C2 (code bug): whenever a rotation point is supplied, `rotate` raises
`UnboundLocalError` on the local `centre` instead of rotating about the
supplied point — `centre` is assigned only in the `rotPoint is None`
branch.  This holds for every image, angle and rotation-matrix primitive. -/
theorem rotate_rotPoint_unbound (getRotationMatrix2D : Int × Int → ℚ → ℚ → AffineMat)
    (image : NpArray) (angle : ℚ) (p : Int × Int) :
    rotate getRotationMatrix2D image angle (some p) =
      .error (.unboundLocalError "centre") := rfl

/-! ### Edge detection: `edges` -/

/-- The median of a list of integers: sort, take the middle element, or the
mean of the two middle elements for even length (`np.median`'s rule; the empty
case is irrelevant to the properties and set to 0). -/
def listMedian (l : List Int) : ℚ :=
  let s := List.insertionSort (· ≤ ·) l
  let n := s.length
  if n = 0 then 0
  else if n % 2 = 1 then ((s.getD (n / 2) 0 : Int) : ℚ)
  else (((s.getD (n / 2 - 1) 0 : Int) : ℚ) + ((s.getD (n / 2) 0 : Int) : ℚ)) / 2

/-- Modelled from the spec: `caer.utilities.median` (imported by the module
but not part of this file) computes "the median pixel intensity of the
(single-channel) image" — the median of the flattened samples. -/
def median (image : NpArray) : ℚ :=
  listMedian image.samples

/-- Python's `int()` applied to a float: truncation toward zero. -/
def pyInt (q : ℚ) : Int :=
  if q < 0 then -Int.floor (-q) else Int.floor q

/-- Embeds `caer.opencv.edges`.  The opaque `cv.Canny` primitive is the
`canny` parameter.  `img : Option NpArray` models the nullable image
(`None` ↦ `none`), and `threshold1`/`threshold2 : Option Int` model arguments
that are either Python ints or `None`; `isinstance(t, int)` is `t.isSome`.
The `use_median` boolean-type check always passes in the typed embedding.
The checks appear in the source's order: the integer check on both
thresholds, then the `None`-image check, then the (consequently unreachable)
missing-threshold check, then the `use_median` branch. -/
def edges (canny : NpArray → Int → Int → NpArray) (img : Option NpArray)
    (threshold1 threshold2 : Option Int) (use_median : Bool := true)
    (sigma : Option ℚ := none) : Except PyErr NpArray :=
  match threshold1, threshold2 with
  | some t1, some t2 =>
    match img with
    | some image =>
      if !use_median && (threshold1.isNone || threshold2.isNone) then
        .error (.valueError "Specify valid threshold values")
      else if use_median then
        let sigmaV := sigma.getD (3 / 10)
        let med := median image
        let low := pyInt (max 0 ((1 - sigmaV) * med))
        let up := pyInt (min 255 ((1 + sigmaV) * med))
        .ok (canny image low up)
      else
        .ok (canny image t1 t2)
    | none => .error (.valueError "Image is of NoneType()")
  | _, _ => .error (.valueError "Threshold values must be integers")

/-- A concrete stand-in instantiating the opaque `cv.Canny` parameter in
witnesses and counterexamples. -/
def cannyStub : NpArray → Int → Int → NpArray :=
  fun image _ _ => image

/-- C1: `edges(img, threshold1=None, threshold2=None, use_median=True)`
raises the parameter-type `ValueError` for every image and sigma — the
integer check on the thresholds runs before the `use_median` flag is
consulted, so automatic mode cannot be invoked without two integer
thresholds. -/
theorem edges_none_thresholds_type_error (canny : NpArray → Int → Int → NpArray)
    (img : Option NpArray) (sigma : Option ℚ) :
    edges canny img none none true sigma =
      .error (.valueError "Threshold values must be integers") := rfl

/-- C3 as stated is false: in non-automatic mode with both thresholds absent,
`edges` fails with the parameter-type error `'Threshold values must be
integers'`, not with the missing-threshold error `'Specify valid threshold
values'`. -/
theorem edges_manual_missing_counterexample :
    edges cannyStub (some (.d2 [[1, 2], [3, 4]])) none none false none =
        .error (.valueError "Threshold values must be integers") ∧
      PyErr.valueError "Threshold values must be integers" ≠
        PyErr.valueError "Specify valid threshold values" :=
  ⟨rfl, by decide⟩

/-- C3 (amended): in non-automatic mode with `threshold1` or `threshold2`
absent, `edges` fails with the parameter-type error `'Threshold values must
be integers'` raised by the unconditional integer check; the
missing-threshold branch is unreachable because an absent threshold already
fails that earlier check. -/
theorem edges_manual_missing_threshold_type_error (canny : NpArray → Int → Int → NpArray)
    (img : Option NpArray) (threshold1 threshold2 : Option Int) (sigma : Option ℚ)
    (h : threshold1 = none ∨ threshold2 = none) :
    edges canny img threshold1 threshold2 false sigma =
      .error (.valueError "Threshold values must be integers") := by
  rcases h with h | h
  · subst h
    cases threshold2 <;> rfl
  · subst h
    cases threshold1 <;> rfl

/-- Witness for the amended C3 at concrete inputs. -/
theorem edges_manual_missing_threshold_type_error_witness :
    ((none : Option Int) = none ∨ (some 150 : Option Int) = none) ∧
      edges cannyStub (some (.d2 [[1, 2], [3, 4]])) none (some 150) false none =
        .error (.valueError "Threshold values must be integers") :=
  ⟨Or.inl rfl,
    edges_manual_missing_threshold_type_error cannyStub (some (.d2 [[1, 2], [3, 4]]))
      none (some 150) none (Or.inl rfl)⟩

/-- C5: in automatic mode (integer thresholds supplied, `use_median=True`),
`edges` computes the median pixel intensity, sets
`low = int(max(0, (1-sigma)*median))` and
`up = int(min(255, (1+sigma)*median))` with `sigma` defaulting to 0.3, and
invokes the Canny primitive with exactly `(low, up)` — for every Canny
primitive, image, thresholds and sigma. -/
theorem edges_auto_canny_thresholds (canny : NpArray → Int → Int → NpArray)
    (image : NpArray) (t1 t2 : Int) (sigma : Option ℚ) :
    edges canny (some image) (some t1) (some t2) true sigma =
      .ok (canny image
        (pyInt (max 0 ((1 - sigma.getD (3 / 10)) * median image)))
        (pyInt (min 255 ((1 + sigma.getD (3 / 10)) * median image)))) := rfl

/-- C10: in automatic mode the integer thresholds are dead inputs — for every
Canny primitive, image and sigma, any two pairs of supplied thresholds give
the same result. -/
theorem edges_auto_threshold_independent (canny : NpArray → Int → Int → NpArray)
    (img : Option NpArray) (sigma : Option ℚ) (t1 t2 u1 u2 : Int) :
    edges canny img (some t1) (some t2) true sigma =
      edges canny img (some u1) (some u2) true sigma := by
  cases img <;> rfl

/-! ### Statistics: `mean` -/

/-- One accumulation step of `cv.mean`'s loop: add pixel `p`'s channel values
to the four-component accumulator (channels a pixel lacks contribute 0,
matching the loop only touching the first `channels` components). -/
def accPix (acc : ℚ × ℚ × ℚ × ℚ) (p : List Int) : ℚ × ℚ × ℚ × ℚ :=
  (acc.1 + ((p.getD 0 0 : Int) : ℚ), acc.2.1 + ((p.getD 1 0 : Int) : ℚ),
   acc.2.2.1 + ((p.getD 2 0 : Int) : ℚ), acc.2.2.2 + ((p.getD 3 0 : Int) : ℚ))

/-- The pixels `cv.mean` averages over: all of them without a mask, those at
mask-nonzero positions with one. -/
def maskedPixels (image : NpArray) (mask : Option NpArray) : List (List Int) :=
  match mask with
  | none => image.pixels
  | some m => ((image.pixels).zip m.samples).filterMap fun pv =>
      if pv.2 ≠ 0 then some pv.1 else none

/-- Models `cv.mean(image, mask)` per OpenCV's documented semantics: the
result is a 4-component `Scalar`, component `k` holding the sum of channel
`k` over the selected pixels divided by their count (0 when the count is 0,
which rational division by zero also gives). -/
def cvMean (image : NpArray) (mask : Option NpArray) : List ℚ :=
  let ps := maskedPixels image mask
  let n : ℚ := (ps.length : ℚ)
  let s := ps.foldl accPix (0, 0, 0, 0)
  [s.1 / n, s.2.1 / n, s.2.2.1 / n, s.2.2.2 / n]

/-- Embeds `caer.opencv.mean`: forwards to `cv.mean`, whose failure (it
asserts at most 4 channels) the bare `except:` rewraps as
`ValueError('mean() expects an image')`. -/
def mean (image : NpArray) (mask : Option NpArray := none) : Except PyErr (List ℚ) :=
  if image.channels > 4 then .error (.valueError "mean() expects an image")
  else .ok (cvMean image mask)

lemma foldl_accPix (ps : List (List Int)) (a : ℚ × ℚ × ℚ × ℚ) :
    ps.foldl accPix a =
      (a.1 + (ps.map fun p => ((p.getD 0 0 : Int) : ℚ)).sum,
       a.2.1 + (ps.map fun p => ((p.getD 1 0 : Int) : ℚ)).sum,
       a.2.2.1 + (ps.map fun p => ((p.getD 2 0 : Int) : ℚ)).sum,
       a.2.2.2 + (ps.map fun p => ((p.getD 3 0 : Int) : ℚ)).sum) := by
  induction ps generalizing a with
  | nil => obtain ⟨a1, a2, a3, a4⟩ := a; simp
  | cons p t ih => obtain ⟨a1, a2, a3, a4⟩ := a; simp [accPix, ih, add_assoc]

lemma pixels_length_eq_channels (img : NpArray) (hr : img.Rect) :
    ∀ p ∈ img.pixels, p.length = img.channels := by
  cases img with
  | d2 rows =>
    intro p hp
    simp only [NpArray.pixels, List.mem_map] at hp
    obtain ⟨v, hv, rfl⟩ := hp
    rfl
  | d3 rows =>
    intro p hp
    simp only [NpArray.pixels, List.mem_flatten] at hp
    obtain ⟨row, hrow, hp⟩ := hp
    exact hr.2 row hrow p hp

lemma cvMean_getD (img : NpArray) (k : Nat) (hk : k < 4) :
    (cvMean img none).getD k 0 =
      ((img.pixels.map fun p => ((p.getD k 0 : Int) : ℚ)).sum) /
        ((img.pixels.length : ℚ)) := by
  simp only [cvMean, maskedPixels, foldl_accPix, zero_add]
  interval_cases k <;> rfl

/-- C4 as stated is false: the mean of a 3-channel image is a 4-element
sequence (`cv.mean` always returns a 4-component `Scalar`), so its length is
not the channel count. -/
theorem mean_length_counterexample :
    (mean (.d3 [[[1, 2, 3], [4, 5, 6]]]) none).map List.length = .ok 4 ∧
      NpArray.channels (.d3 [[[1, 2, 3], [4, 5, 6]]]) = 3 ∧ (4 : Nat) ≠ 3 :=
  ⟨rfl, rfl, by decide⟩

/-- C4 (amended): for every valid (rectangular, at most 4-channel) image,
`mean img` succeeds with an ordered sequence of length exactly 4 whose entry
`k` is the average of channel `k` over all pixels, entries beyond the channel
count being 0 — so the length equals the channel count only for 4-channel
images. -/
theorem mean_four_channel_averages (img : NpArray) (hr : img.Rect)
    (hc : img.channels ≤ 4) :
    ∃ out, mean img none = .ok out ∧ out.length = 4 ∧
      (∀ k, k < 4 →
        out.getD k 0 =
          ((img.pixels.map fun p => ((p.getD k 0 : Int) : ℚ)).sum) /
            ((img.pixels.length : ℚ))) ∧
      (∀ k, img.channels ≤ k → out.getD k 0 = 0) := by
  refine ⟨cvMean img none, ?_, by simp [cvMean], fun k hk => cvMean_getD img k hk, ?_⟩
  · simp only [mean, if_neg (by omega : ¬ img.channels > 4)]
  · intro k hk
    by_cases h4 : k < 4
    · rw [cvMean_getD img k h4]
      have hzero : (img.pixels.map fun p => ((p.getD k 0 : Int) : ℚ)).sum = 0 := by
        apply List.sum_eq_zero
        intro q hq
        simp only [List.mem_map] at hq
        obtain ⟨p, hp, rfl⟩ := hq
        have hlen := pixels_length_eq_channels img hr p hp
        rw [List.getD_eq_default _ _ (by omega)]
        simp
      rw [hzero, zero_div]
    · have hlen4 : (cvMean img none).length = 4 := by simp [cvMean]
      rw [List.getD_eq_default _ _ (by omega)]

/-- Witness for the amended C4 at a concrete 3-channel image. -/
theorem mean_four_channel_averages_witness :
    NpArray.Rect (.d3 [[[1, 2, 3], [4, 5, 6]]]) ∧
      NpArray.channels (.d3 [[[1, 2, 3], [4, 5, 6]]]) ≤ 4 ∧
      (∃ out, mean (.d3 [[[1, 2, 3], [4, 5, 6]]]) none = .ok out ∧ out.length = 4 ∧
        (∀ k, k < 4 →
          out.getD k 0 =
            (((NpArray.d3 [[[1, 2, 3], [4, 5, 6]]]).pixels.map
                fun p => ((p.getD k 0 : Int) : ℚ)).sum) /
              (((NpArray.d3 [[[1, 2, 3], [4, 5, 6]]]).pixels.length : ℚ))) ∧
        (∀ k, NpArray.channels (.d3 [[[1, 2, 3], [4, 5, 6]]]) ≤ k → out.getD k 0 = 0)) :=
  ⟨by decide, by decide, mean_four_channel_averages _ (by decide) (by decide)⟩

/-! ### Network loader: `url_to_image` -/

/-- Embeds `caer.opencv.url_to_image`.  The network fetch
(`urlopen(url)` followed by `.read()` and `asarray(bytearray(...))`) and the
decoder (`cv.imdecode(·, IMREAD_COLOR)`) are opaque external primitives,
taken as the parameters `urlopenRead` and `imdecode`; their failures are
`Except.error`s.  The source wraps nothing in `try`/`except`, so the embedding
is a plain sequential composition. -/
def url_to_image (urlopenRead : String → Except PyErr (List Nat))
    (imdecode : List Nat → Except PyErr NpArray) (url : String)
    (rgb : Bool := false) : Except PyErr NpArray := do
  let bytes ← urlopenRead url
  let image ← imdecode bytes
  if rgb then bgr_to_rgb image else pure image

/-- C9: `url_to_image` catches no failures locally — if the fetch fails, or
the fetch succeeds and decoding its bytes fails, the very same error
propagates to the caller untranslated (no partially decoded image is
returned), for every fetch primitive, decode primitive, URL and `rgb`
flag. -/
theorem url_to_image_propagates (urlopenRead : String → Except PyErr (List Nat))
    (imdecode : List Nat → Except PyErr NpArray) (url : String) (rgb : Bool) (e : PyErr)
    (h : urlopenRead url = .error e ∨
      ∃ bs, urlopenRead url = .ok bs ∧ imdecode bs = .error e) :
    url_to_image urlopenRead imdecode url rgb = .error e := by
  rcases h with h | ⟨bs, h1, h2⟩
  · unfold url_to_image
    rw [h]
    rfl
  · unfold url_to_image
    rw [h1]
    show (imdecode bs).bind _ = _
    rw [h2]
    rfl

/-- Witness for C9: a concrete always-failing fetch propagates its error. -/
theorem url_to_image_propagates_witness :
    ((fun _ : String => (Except.error (PyErr.urlError "unreachable") : Except PyErr (List Nat)))
          "http://example.com/a.png" = .error (PyErr.urlError "unreachable") ∨
        ∃ bs, (fun _ : String =>
            (Except.error (PyErr.urlError "unreachable") : Except PyErr (List Nat)))
          "http://example.com/a.png" = .ok bs ∧
          (fun _ : List Nat => (Except.ok (NpArray.d2 []) : Except PyErr NpArray)) bs =
            .error (PyErr.urlError "unreachable")) ∧
      url_to_image
        (fun _ : String => (Except.error (PyErr.urlError "unreachable") : Except PyErr (List Nat)))
        (fun _ : List Nat => (Except.ok (NpArray.d2 []) : Except PyErr NpArray))
        "http://example.com/a.png" false = .error (PyErr.urlError "unreachable") :=
  ⟨Or.inl rfl, url_to_image_propagates _ _ _ _ _ (Or.inl rfl)⟩

end Caer
